import Mathlib

/-!
Verification development for the event photo-gallery face-grouping component.

The repository contains two variants of the `ViewEvent` component:
* strategy A (`src/src/components/ViewEvent.tsx`): two-phase per-face grouping —
  index every image, then search by face id and fold match results into a
  face-id-to-group-id map;
* strategy B (`src/unnamed/part_000`): whole-image grouping — search by image,
  adopt a differing external tag or mint a fresh group id, then index the image
  tagged with the resolved id.

External services (S3 object storage, the Rekognition face service) are
modelled as explicit outcome parameters: each remote call's result is a value
of an `Except`/response type supplied to the embedded function, so an
embedded run corresponds to one concrete schedule of service responses.
JavaScript objects used as string-keyed dictionaries are modelled as
insertion-ordered association lists, matching the enumeration order of
`Object.entries`/`Object.values`.
-/

/-- An event image as held in component state: a storage key and derived URL. -/
structure EventImage where
  url : String
  key : String
deriving DecidableEq

/-! ### JS-object buckets

Both variants build their partition with the idiom
`if (!groups[gid]) groups[gid] = []; groups[gid].push(x)` over a plain JS
object.  Key enumeration order of such an object is first-insertion order,
so the partition is an insertion-ordered association list from group id to
member list. -/

/-- One push of `x` into bucket `gid` of an insertion-ordered bucket list:
appends to an existing bucket, or appends a fresh singleton bucket at the
end (first-insertion key order). -/
def insertBucket {α : Type} (gs : List (String × List α)) (gid : String) (x : α) :
    List (String × List α) :=
  match gs with
  | [] => [(gid, [x])]
  | (g, xs) :: rest =>
    if g = gid then (g, xs ++ [x]) :: rest else (g, xs) :: insertBucket rest gid x

/-- The bucket-building loop shared by both variants: fold the element list,
pushing each element into the bucket named by `resolve`. -/
def buildBuckets {α : Type} (resolve : α → String) (xs : List α) :
    List (String × List α) :=
  xs.foldl (fun gs x => insertBucket gs (resolve x) x) []

/-- Reading `groups[gid]` from the bucket list (missing key reads as `[]`). -/
def bucketOf {α : Type} (gs : List (String × List α)) (gid : String) : List α :=
  match gs.find? (fun p => p.1 == gid) with
  | some p => p.2
  | none => []

/-! ### Strategy B — whole-image grouping (`src/unnamed/part_000`)

Each image is processed by one concurrent task: search the collection by
image, adopt the first match whose external tag is present, nonempty and
differs from the image's own key; otherwise keep the empty sentinel and mint
a fresh `group_<timestamp>_<random>` id; then issue the index call tagged
with the resolved id (always, in its own try/catch). -/

namespace StrategyB

/-- The face payload of one Rekognition match (`m.Face`), as consumed here. -/
structure RekFace where
  externalImageId : Option String
deriving DecidableEq

/-- One entry of `searchResponse.FaceMatches`. -/
structure FaceMatch where
  face : Option RekFace
deriving DecidableEq

/-- The `SearchFacesByImage` response shape consumed by the component. -/
structure SearchResponse where
  faceMatches : Option (List FaceMatch)
deriving DecidableEq

/-- The JS truthiness test of the `find` callback:
`m.Face && m.Face.ExternalImageId && m.Face.ExternalImageId !== image.key`. -/
def isForeignMatch (key : String) (m : FaceMatch) : Bool :=
  match m.face with
  | some f =>
    match f.externalImageId with
    | some t => !(t == "") && !(t == key)
    | none => false
  | none => false

/-- `searchResponse.FaceMatches.find(...)` over the match list. -/
def findForeignMatch (key : String) (ms : List FaceMatch) : Option FaceMatch :=
  ms.find? (isForeignMatch key)

/-- The value of the `groupId` variable after the search try/catch: the empty
string sentinel when the call failed, no matches came back, or no match had a
usable differing tag; otherwise the found match's external tag. -/
def groupIdFromSearch (key : String) (o : Except Unit SearchResponse) : String :=
  match o with
  | .error _ => ""
  | .ok r =>
    match r.faceMatches with
    | none => ""
    | some ms =>
      if ms.length > 0 then
        match findForeignMatch key ms with
        | some m =>
          match m.face with
          | some f => f.externalImageId.getD ""
          | none => ""
        | none => ""
      else ""

/-- The freshly minted id `group_${Date.now()}_${Math.random()...}`; the
timestamp and random suffix are inputs of the model. -/
def mintGroupId (ts rand : String) : String :=
  "group_" ++ ts ++ "_" ++ rand

/-- Result of one per-image task: the key/groupId pair the task returns, plus
the `ExternalImageId` passed to the `IndexFacesCommand` that the task issues
unconditionally after resolving the id (`none` would mean no index call was
issued; the code always issues one). -/
structure ProcessResult where
  key : String
  groupId : String
  indexedTag : Option String
deriving DecidableEq

/-- One per-image task of `detectAndGroupFaces`: resolve the group id from
the search outcome, mint a fresh id when the sentinel is still empty, then
issue the index call tagged with the resolved id. -/
def processImage (key ts rand : String) (o : Except Unit SearchResponse) : ProcessResult :=
  let g0 := groupIdFromSearch key o
  let g := if g0 == "" then mintGroupId ts rand else g0
  { key := key, groupId := g, indexedTag := some g }

/-- `results.find(r => r.key === image.key)` then `result.groupId` with the
`'unknown'` fallback, as in the group-building loop. -/
def resolveResult (results : List ProcessResult) (img : EventImage) : String :=
  match results.find? (fun r => r.key == img.key) with
  | some r => r.groupId
  | none => "unknown"

/-- The group-building loop over the original image list. -/
def buildGroups (images : List EventImage) (results : List ProcessResult) :
    List (String × List EventImage) :=
  buildBuckets (resolveResult results) images

/-- A full grouping pass: run every per-image task (each with its own search
outcome, timestamp and random suffix) and assemble the partition. -/
def runGrouping (images : List EventImage) (oracle : EventImage → Except Unit SearchResponse)
    (ts rand : EventImage → String) : List (String × List EventImage) :=
  buildGroups images (images.map (fun i => processImage i.key (ts i) (rand i) (oracle i)))

/-- The rendered "Other Images" bucket:
`images.filter(image => !Object.values(faceGroups).flat().includes(image))`. -/
def ungrouped (stateImages : List EventImage) (groups : List (String × List EventImage)) :
    List EventImage :=
  stateImages.filter (fun img => !(decide (img ∈ (groups.map Prod.snd).flatten)))

/-- Component state touched by `handleDelete` in this variant. -/
structure ComponentState where
  deleting : List String
  images : List EventImage
  faceGroups : List (String × List EventImage)
deriving DecidableEq

/-- The `setDeleting(prev => [...prev, image.key])` step at the top of the
`try` block, before the remote delete is awaited. -/
def deleteStart (s : ComponentState) (image : EventImage) : ComponentState :=
  { s with deleting := s.deleting ++ [image.key] }

/-- The whole `handleDelete` run; `remoteOk` is the outcome of the awaited S3
`DeleteObjectCommand`.  On success the image is filtered out of `images` and
out of every group's member list (empty groups are kept); on failure the
`catch` only logs.  The `finally` clears the deleting marker on both paths. -/
def handleDelete (s : ComponentState) (image : EventImage) (remoteOk : Bool) : ComponentState :=
  let s1 := deleteStart s image
  let s2 :=
    if remoteOk then
      { s1 with
        images := s1.images.filter (fun img => !(img.key == image.key)),
        faceGroups :=
          s1.faceGroups.map (fun p => (p.1, p.2.filter (fun img => !(img.key == image.key)))) }
    else s1
  { s2 with deleting := s2.deleting.filter (fun k => !(k == image.key)) }

end StrategyB

/-! ### Strategy A — two-phase per-face grouping (`src/src/components/ViewEvent.tsx`)

Phase 1 indexes every image, collecting one `FaceRecordWithImage` per face
the service reports.  Phase 2 searches the collection by each face id,
folding results into a face-id-to-group-id map and a group counter; the fold
order models the completion order of the concurrent search callbacks. -/

namespace StrategyA

/-- The face payload of an indexed face record (`rec.Face`). TS `number`
fields of the bounding box are carried as opaque numeric payloads; the
component never computes on them. -/
structure RekIndexedFace where
  faceId : Option String
  boundingBox : Option (List (String × Int))
deriving DecidableEq

/-- One entry of `indexResponse.FaceRecords`. -/
structure RekFaceRecord where
  face : Option RekIndexedFace
deriving DecidableEq

/-- The `IndexFaces` response shape consumed by the component. -/
structure IndexResponse where
  faceRecords : Option (List RekFaceRecord)
deriving DecidableEq

/-- A detected face paired with its source image, as stored by phase 1. -/
structure FaceRecordWithImage where
  faceId : String
  boundingBox : Option (List (String × Int))
  image : EventImage
deriving DecidableEq

/-- The records one image's index call contributes: every returned record
with a truthy `Face?.FaceId`, tagged with the source image. -/
def indexExtract (img : EventImage) (resp : IndexResponse) : List FaceRecordWithImage :=
  match resp.faceRecords with
  | none => []
  | some recs =>
    recs.filterMap (fun rec =>
      match rec.face with
      | some f =>
        match f.faceId with
        | some fid =>
          if fid == "" then none
          else some { faceId := fid, boundingBox := f.boundingBox, image := img }
        | none => none
      | none => none)

/-- Phase 1 over the batch: each image's index outcome either contributes its
extracted records (pushed in completion order) or, on a caught
`RecognitionError`, nothing. -/
def phase1 (pairs : List (EventImage × Except Unit IndexResponse)) :
    List FaceRecordWithImage :=
  pairs.foldl
    (fun acc p =>
      match p.2 with
      | .error _ => acc
      | .ok resp => acc ++ indexExtract p.1 resp)
    []

/-- The face payload of one `SearchFaces` match (`m.Face`). -/
structure RekMatchFace where
  faceId : Option String
deriving DecidableEq

/-- One entry of `searchResponse.FaceMatches`. -/
structure FaceMatch where
  face : Option RekMatchFace
deriving DecidableEq

/-- The `SearchFaces` response shape consumed by the component. -/
structure SearchResponse where
  faceMatches : Option (List FaceMatch)
deriving DecidableEq

/-- The parameters of the `SearchFacesCommand` phase 2 issues per face. -/
structure SearchFacesParams where
  collectionId : String
  faceId : String
  maxFaces : Nat
  faceMatchThreshold : Nat
deriving DecidableEq

/-- The command phase 2 constructs for one face record. -/
def phase2SearchParams (collectionId faceId : String) : SearchFacesParams :=
  { collectionId := collectionId, faceId := faceId, maxFaces := 5, faceMatchThreshold := 80 }

/-- The matched face ids in service order, keeping only truthy ids:
`FaceMatches.map(m => m.Face?.FaceId).filter(id => !!id)`. -/
def matchFaceIds (ms : List FaceMatch) : List String :=
  (ms.filterMap (fun m => m.face.bind (fun f => f.faceId))).filter (fun id => !(id == ""))

/-- The already-assigned group ids of the matched faces, in service order:
`.map(id => faceIdToGroupId[id]).filter(gid => !!gid)`. -/
def matchedGroupIds (assigned : List (String × String)) (ms : List FaceMatch) : List String :=
  ((matchFaceIds ms).filterMap (fun id => List.lookup id assigned)).filter (fun g => !(g == ""))

/-- The shared mutable state of phase 2: the face-id-to-group-id map
(modelled as a cons-on-write association list read through first-match
lookup, matching JS object write/read) and the group counter. -/
structure Phase2State where
  assigned : List (String × String)
  groupCount : Nat
deriving DecidableEq

/-- The fresh id minted from the incremented counter: `group_${groupCount}`. -/
def newGroupId (n : Nat) : String := "group_" ++ toString n

/-- One search callback of phase 2, run against the state as of its
completion: adopt the first already-assigned matched group id, otherwise
(no matches, none assigned yet, or a caught search error) mint a fresh id. -/
def phase2Step (s : Phase2State) (faceId : String) (res : Except Unit SearchResponse) :
    Phase2State :=
  match res with
  | .error _ =>
    { assigned := (faceId, newGroupId (s.groupCount + 1)) :: s.assigned,
      groupCount := s.groupCount + 1 }
  | .ok r =>
    match r.faceMatches with
    | some ms =>
      if ms.length > 0 then
        match matchedGroupIds s.assigned ms with
        | g :: _ => { s with assigned := (faceId, g) :: s.assigned }
        | [] =>
          { assigned := (faceId, newGroupId (s.groupCount + 1)) :: s.assigned,
            groupCount := s.groupCount + 1 }
      else
        { assigned := (faceId, newGroupId (s.groupCount + 1)) :: s.assigned,
          groupCount := s.groupCount + 1 }
    | none =>
      { assigned := (faceId, newGroupId (s.groupCount + 1)) :: s.assigned,
        groupCount := s.groupCount + 1 }

/-- Phase 2 over the batch, in callback-completion order. -/
def runPhase2 (pairs : List (String × Except Unit SearchResponse)) : Phase2State :=
  pairs.foldl (fun s p => phase2Step s p.1 p.2) { assigned := [], groupCount := 0 }

/-- `faceIdToGroupId[faceRec.faceId]` as a bucket key: a missing entry reads
as JS `undefined`, which stringifies to the object key `"undefined"`. -/
def resolveGid (assigned : List (String × String)) (r : FaceRecordWithImage) : String :=
  (List.lookup r.faceId assigned).getD "undefined"

/-- The final partition build: one pass over all face records, bucketing each
by its resolved group id. -/
def buildGroups (assigned : List (String × String)) (records : List FaceRecordWithImage) :
    List (String × List FaceRecordWithImage) :=
  buildBuckets (resolveGid assigned) records

/-- Component state touched by `handleDelete` in this variant. -/
structure ComponentState where
  deleting : List String
  images : List EventImage
  faceGroups : List (String × List FaceRecordWithImage)
  allFaceRecords : List FaceRecordWithImage
deriving DecidableEq

/-- The `setDeleting(prev => [...prev, image.key])` step at the top of the
`try` block, before the remote delete is awaited. -/
def deleteStart (s : ComponentState) (image : EventImage) : ComponentState :=
  { s with deleting := s.deleting ++ [image.key] }

/-- The whole `handleDelete` run; `remoteOk` is the outcome of the awaited S3
`DeleteObjectCommand`.  On success the image is filtered out of `images`,
its face records are filtered out of every group (and groups left empty are
deleted) and out of `allFaceRecords`; on failure the `catch` only logs.  The
`finally` clears the deleting marker on both paths. -/
def handleDelete (s : ComponentState) (image : EventImage) (remoteOk : Bool) : ComponentState :=
  let s1 := deleteStart s image
  let s2 :=
    if remoteOk then
      { s1 with
        images := s1.images.filter (fun img => !(img.key == image.key)),
        faceGroups :=
          (s1.faceGroups.map
              (fun p => (p.1, p.2.filter (fun fr => !(fr.image.key == image.key))))).filter
            (fun p => !(p.2.length == 0)),
        allFaceRecords := s1.allFaceRecords.filter (fun fr => !(fr.image.key == image.key)) }
    else s1
  { s2 with deleting := s2.deleting.filter (fun k => !(k == image.key)) }

end StrategyA

/-! ### Image listing (`fetchEventImages`, identical in both variants) -/

/-- One entry of an S3 `ListObjectsV2` result's `Contents`. -/
structure S3Item where
  key : Option String
deriving DecidableEq

/-- A `ListObjectsV2` result as consumed: `Contents` may be absent. -/
structure ListResult where
  contents : Option (List S3Item)
deriving DecidableEq

/-- The key filter: a truthy `item.Key` matching the case-insensitive suffix
test of the regular expression over jpg, jpeg and png endings (expressed over
the character list so the test is kernel-computable). -/
def isImageKey (k : String) : Bool :=
  let lk := k.data.map Char.toLower
  List.isSuffixOf ".jpg".data lk || List.isSuffixOf ".jpeg".data lk
    || List.isSuffixOf ".png".data lk

/-- The filter-and-map of one prefix's listed contents into `EventImage`s. -/
def itemsToImages (bucket : String) (items : List S3Item) : List EventImage :=
  (items.filter (fun it =>
      match it.key with
      | some k => !(k == "") && isImageKey k
      | none => false)).map
    (fun it =>
      { url := "https://" ++ bucket ++ ".s3.amazonaws.com/" ++ (it.key.getD ""),
        key := it.key.getD "" })

/-- The per-prefix loop body: a failed listing stores the error and
continues; a successful one appends its (possibly absent) filtered
contents. -/
def fetchStep (bucket : String) (acc : List EventImage × Option Nat)
    (o : Except Nat ListResult) : List EventImage × Option Nat :=
  match o with
  | .error e => (acc.1, some e)
  | .ok r =>
    (match r.contents with
     | some items => acc.1 ++ itemsToImages bucket items
     | none => acc.1, acc.2)

/-- The loop over all prefixes, accumulating listed images and the last
retained error. -/
def fetchLoop (bucket : String) (outcomes : List (Except Nat ListResult)) :
    List EventImage × Option Nat :=
  outcomes.foldl (fetchStep bucket) ([], none)

/-- What `fetchEventImages` surfaces: a usable image list, a re-raised
storage error (caught by the outer handler and shown as the load error), or
the "no images" message. -/
inductive FetchOutcome where
  | proceed (imgs : List EventImage)
  | failed (e : Nat)
  | noImages
deriving DecidableEq

/-- The decision after the prefix loop: proceed when anything was listed,
otherwise re-raise a retained error, otherwise report no images. -/
def fetchEventImages (bucket : String) (outcomes : List (Except Nat ListResult)) :
    FetchOutcome :=
  let r := fetchLoop bucket outcomes
  if r.1.length > 0 then .proceed r.1
  else
    match r.2 with
    | some e => .failed e
    | none => .noImages

/-! ### Upload progress (`handleFileChange` progress callback) -/

/-- One `httpUploadProgress` event as consumed: both fields may be absent. -/
structure ProgressEvent where
  loaded : Option Nat
  total : Option Nat
deriving DecidableEq

/-- JS `v || d` on an optional number: `0` and a missing value are falsy. -/
def jsOr (v : Option Nat) (d : Nat) : Nat :=
  match v with
  | some n => if n == 0 then d else n
  | none => d

/-- `Math.round((progress.loaded || 0) * 100 / (progress.total || 1))`,
as exact half-up rounding of the quotient. -/
def progressPercent (e : ProgressEvent) : Nat :=
  (200 * jsOr e.loaded 0 + jsOr e.total 1) / (2 * jsOr e.total 1)

/-- The values handed to `setUploadProgress` over a batch: every file's
upload shares the one callback, so the emitted sequence is the percentage of
each arriving event in arrival order. -/
def emittedPercents (events : List ProgressEvent) : List Nat :=
  events.map progressPercent

/-! ### Definitions taken from the specification's wording

These two follow the spec sentences verbatim (not the code); the claims
compare them with the source-derived behaviour above. -/

namespace StrategyA

/-- Spec wording (§4.3 rule 1): among the matched face ids, in the order
returned by the service, the assigned group id of the first one that already
has an assigned group id. -/
def firstAssignedGroupSpec (assigned : List (String × String)) (ms : List FaceMatch) :
    Option String :=
  ((ms.filterMap (fun m => m.face.bind (fun f => f.faceId))).filterMap
      (fun id => List.lookup id assigned)).head?

end StrategyA

namespace StrategyB

/-- The external tags present in a search outcome, in service order; used to
state the service well-formedness assumption that external tags are nonempty
(the service never issues an empty external image id). -/
def tagsOf (o : Except Unit SearchResponse) : List String :=
  match o with
  | .error _ => []
  | .ok r =>
    match r.faceMatches with
    | none => []
    | some ms => ms.filterMap (fun m => m.face.bind (fun f => f.externalImageId))

/-- Spec wording (§4.3b): the external tag of the first match whose tag
differs from the image's own key, when the search succeeded and returned
matches. -/
def foreignTagSpec (key : String) (o : Except Unit SearchResponse) : Option String :=
  match o with
  | .error _ => none
  | .ok r =>
    match r.faceMatches with
    | none => none
    | some ms =>
      (ms.filterMap (fun m => m.face.bind (fun f => f.externalImageId))).find?
        (fun t => !(t == key))

end StrategyB

/-! ### Concrete states used by witnesses -/

/-- Concrete states for the C3 witness. -/
def c3StateA : StrategyA.ComponentState :=
  { deleting := [], images := [⟨"u", "k1"⟩],
    faceGroups := [("g", [{ faceId := "f", boundingBox := none, image := ⟨"u", "k1"⟩ }])],
    allFaceRecords := [] }

/-- Concrete state for the C3 witness, whole-image variant. -/
def c3StateB : StrategyB.ComponentState :=
  { deleting := [], images := [⟨"u", "k1"⟩], faceGroups := [("g", [⟨"u", "k1"⟩])] }

/-- Concrete search outcome for the C7 witness: one match whose external
tag is present and differs from the searched image's key. -/
def c7Outcome : Except Unit StrategyB.SearchResponse :=
  Except.ok { faceMatches := some [{ face := some { externalImageId := some "g1" } }] }

/-- Concrete match list for the C2 witness: the first match's face id has no
assigned group yet, the second's does. -/
def c2Matches : List StrategyA.FaceMatch :=
  [{ face := some { faceId := some "f9" } }, { face := some { faceId := some "f1" } }]

/-- Concrete inputs for the C1 witness. -/
def c1Images : List EventImage := [⟨"ua", "a.jpg"⟩, ⟨"ub", "b.jpg"⟩]

/-- C1 witness oracle: every search fails, so every image mints. -/
def c1Oracle : EventImage → Except Unit StrategyB.SearchResponse := fun _ => Except.error ()

/-- C1 witness timestamps. -/
def c1Ts : EventImage → String := fun _ => "t"

/-- C1 witness random suffixes. -/
def c1Rand : EventImage → String := fun _ => "r"

/-! ### Bucket lemmas -/

theorem bucketOf_nil {α : Type} (gid : String) : bucketOf ([] : List (String × List α)) gid = [] := rfl

theorem bucketOf_cons {α : Type} (k : String) (ys : List α) (rest : List (String × List α))
    (gid : String) :
    bucketOf ((k, ys) :: rest) gid = if k = gid then ys else bucketOf rest gid := by
  by_cases h : k = gid <;> simp [bucketOf, List.find?_cons, h]

theorem bucketOf_insertBucket {α : Type} (gs : List (String × List α)) (g gid : String) (x : α) :
    bucketOf (insertBucket gs g x) gid
      = bucketOf gs gid ++ (if g = gid then [x] else []) := by
  induction gs with
  | nil =>
    by_cases h : g = gid <;> simp [insertBucket, bucketOf_cons, bucketOf_nil, h]
  | cons p rest ih =>
    obtain ⟨k, ys⟩ := p
    by_cases hk : k = g
    · subst hk
      by_cases h : k = gid <;>
        simp [insertBucket, bucketOf_cons, h]
    · by_cases h : k = gid
      · subst h
        have hg : ¬ g = k := fun he => hk he.symm
        simp [insertBucket, if_neg hk, bucketOf_cons, hg]
      · simp [insertBucket, if_neg hk, bucketOf_cons, h, ih]

/-- Generalised fold lemma: after pushing every element of `xs`, the bucket
named `gid` holds its previous contents followed by exactly the elements of
`xs` that resolve to `gid`, in their original order. -/
theorem bucketOf_foldl {α : Type} (resolve : α → String) (xs : List α)
    (gs : List (String × List α)) (gid : String) :
    bucketOf (xs.foldl (fun acc x => insertBucket acc (resolve x) x) gs) gid
      = bucketOf gs gid ++ xs.filter (fun x => resolve x == gid) := by
  induction xs generalizing gs with
  | nil => simp
  | cons x xs ih =>
    simp only [List.foldl_cons, ih, bucketOf_insertBucket]
    by_cases h : resolve x = gid
    · simp [List.filter_cons, h]
    · simp [List.filter_cons, h]

theorem bucketOf_buildBuckets {α : Type} (resolve : α → String) (xs : List α) (gid : String) :
    bucketOf (buildBuckets resolve xs) gid = xs.filter (fun x => resolve x == gid) := by
  simpa [buildBuckets, bucketOf_nil] using bucketOf_foldl resolve xs [] gid

theorem keys_insertBucket {α : Type} (gs : List (String × List α)) (g : String) (x : α) :
    (insertBucket gs g x).map Prod.fst
      = if g ∈ gs.map Prod.fst then gs.map Prod.fst else gs.map Prod.fst ++ [g] := by
  induction gs with
  | nil => simp [insertBucket]
  | cons p rest ih =>
    obtain ⟨k, ys⟩ := p
    by_cases h : k = g
    · subst h
      simp [insertBucket]
    · simp only [insertBucket, if_neg h, List.map_cons, ih]
      by_cases hm : g ∈ rest.map Prod.fst
      · simp [hm, h, Ne.symm h]
      · simp [hm, h, Ne.symm h]

theorem keys_nodup_insertBucket {α : Type} (gs : List (String × List α)) (g : String) (x : α)
    (h : (gs.map Prod.fst).Nodup) : ((insertBucket gs g x).map Prod.fst).Nodup := by
  rw [keys_insertBucket]
  by_cases hm : g ∈ gs.map Prod.fst
  · simpa [hm] using h
  · rw [if_neg hm]
    refine List.nodup_append.mpr ⟨h, List.nodup_singleton g, ?_⟩
    intro a ha hb
    simp only [List.mem_singleton] at hb
    exact hm (hb ▸ ha)

theorem keys_nodup_foldl {α : Type} (resolve : α → String) (xs : List α)
    (gs : List (String × List α)) (h : (gs.map Prod.fst).Nodup) :
    (((xs.foldl (fun acc x => insertBucket acc (resolve x) x) gs)).map Prod.fst).Nodup := by
  induction xs generalizing gs with
  | nil => simpa using h
  | cons x xs ih =>
    simp only [List.foldl_cons]
    exact ih _ (keys_nodup_insertBucket gs (resolve x) x h)

theorem keys_nodup_buildBuckets {α : Type} (resolve : α → String) (xs : List α) :
    ((buildBuckets resolve xs).map Prod.fst).Nodup :=
  keys_nodup_foldl resolve xs [] (by simp)

/-- With no duplicate keys, a bucket list determines its entries: two members
with the same key are the same entry. -/
theorem entry_eq_of_keys_nodup {α : Type} {gs : List (String × List α)}
    (h : (gs.map Prod.fst).Nodup) {b b' : String × List α}
    (hb : b ∈ gs) (hb' : b' ∈ gs) (hk : b.1 = b'.1) : b = b' := by
  induction gs with
  | nil => cases hb
  | cons p rest ih =>
    simp only [List.map_cons, List.nodup_cons] at h
    rcases List.mem_cons.mp hb with hb1 | hb1 <;>
      rcases List.mem_cons.mp hb' with hb2 | hb2
    · exact hb1.trans hb2.symm
    · exfalso
      apply h.1
      rw [hb1] at hk
      exact hk ▸ List.mem_map_of_mem Prod.fst hb2
    · exfalso
      apply h.1
      rw [hb2] at hk
      exact hk ▸ List.mem_map_of_mem Prod.fst hb1
    · exact ih h.2 hb1 hb2

/-- With no duplicate keys, reading a member entry's key returns its list. -/
theorem bucketOf_of_mem {α : Type} {gs : List (String × List α)}
    (h : (gs.map Prod.fst).Nodup) {b : String × List α} (hb : b ∈ gs) :
    bucketOf gs b.1 = b.2 := by
  induction gs with
  | nil => cases hb
  | cons p rest ih =>
    simp only [List.map_cons, List.nodup_cons] at h
    rcases List.mem_cons.mp hb with hb1 | hb1
    · subst hb1
      simp [bucketOf, List.find?]
    · have hne : p.1 ≠ b.1 := by
        intro he
        exact h.1 (he ▸ List.mem_map_of_mem Prod.fst hb1)
      have : (p.1 == b.1) = false := by
        simpa using hne
      simpa [bucketOf, List.find?, this] using ih h.2 hb1

/-- A nonempty read means the key is present, and names that member entry. -/
theorem exists_entry_of_mem_bucketOf {α : Type} {gs : List (String × List α)}
    {gid : String} {x : α} (hx : x ∈ bucketOf gs gid) :
    ∃ b ∈ gs, b.1 = gid ∧ b.2 = bucketOf gs gid := by
  induction gs with
  | nil => simp [bucketOf, List.find?] at hx
  | cons p rest ih =>
    by_cases h : p.1 = gid
    · refine ⟨p, List.mem_cons_self _ _, h, ?_⟩
      simp [bucketOf, List.find?, h]
    · have hfalse : (p.1 == gid) = false := by simpa using h
      simp only [bucketOf, List.find?, hfalse] at hx ⊢
      obtain ⟨b, hb, hbk, hbv⟩ := ih hx
      exact ⟨b, List.mem_cons_of_mem _ hb, hbk, hbv⟩

/-! ### Claim theorems -/

/-- C8: once phase 2 has resolved every face, the partition is built by one
pass over the face-record list; each record lands in the bucket of its
resolved group id, and each bucket holds exactly the records resolving to
its id in the order they appear in the record list (first-seen order). -/
theorem strategyA_partition_buckets_by_resolved_gid (assigned : List (String × String))
    (records : List StrategyA.FaceRecordWithImage) (gid : String) :
    bucketOf (StrategyA.buildGroups assigned records) gid
      = records.filter (fun r => StrategyA.resolveGid assigned r == gid) :=
  bucketOf_buildBuckets (StrategyA.resolveGid assigned) records gid

/-- C5: a recognition failure is absorbed at the failing image/face's own
boundary.  A failed index call contributes zero face records and leaves the
rest of the batch's records unchanged; a failed per-face search is processed
exactly like an empty match list (fresh group), leaving every other face's
processing unchanged; and in the whole-image variant a failed search is
likewise processed exactly like an empty match list.  In particular no
single failure aborts a grouping pass. -/
theorem recognition_failure_degrades_locally :
    (∀ (pre post : List (EventImage × Except Unit StrategyA.IndexResponse))
       (img : EventImage) (e : Unit),
        StrategyA.phase1 (pre ++ (img, Except.error e) :: post) = StrategyA.phase1 (pre ++ post)) ∧
    (∀ (pre post : List (String × Except Unit StrategyA.SearchResponse)) (fid : String) (e : Unit),
        StrategyA.runPhase2 (pre ++ (fid, Except.error e) :: post)
          = StrategyA.runPhase2 (pre ++ (fid, Except.ok ⟨some []⟩) :: post)) ∧
    (∀ (key ts rand : String) (e : Unit),
        StrategyB.processImage key ts rand (Except.error e)
          = StrategyB.processImage key ts rand (Except.ok ⟨some []⟩)) := by
  refine ⟨?_, ?_, ?_⟩
  · intro pre post img e
    simp [StrategyA.phase1, List.foldl_append]
  · intro pre post fid e
    simp only [StrategyA.runPhase2, List.foldl_append, List.foldl_cons]
    rfl
  · intro key ts rand e
    rfl

/-- C10: a delete operation pushes the image key onto the deleting set
before the remote call and, whether the remote delete succeeds or fails, the
`finally` clause removes it again — no key stays marked after the operation
terminates (both variants). -/
theorem delete_marker_added_then_cleared :
    ∀ (sA : StrategyA.ComponentState) (sB : StrategyB.ComponentState)
      (image : EventImage) (remoteOk : Bool),
      image.key ∈ (StrategyA.deleteStart sA image).deleting ∧
      image.key ∉ (StrategyA.handleDelete sA image remoteOk).deleting ∧
      image.key ∈ (StrategyB.deleteStart sB image).deleting ∧
      image.key ∉ (StrategyB.handleDelete sB image remoteOk).deleting := by
  intro sA sB image remoteOk
  refine ⟨?_, ?_, ?_, ?_⟩
  · simp [StrategyA.deleteStart]
  · cases remoteOk <;>
      simp [StrategyA.handleDelete, StrategyA.deleteStart, List.mem_filter]
  · simp [StrategyB.deleteStart]
  · cases remoteOk <;>
      simp [StrategyB.handleDelete, StrategyB.deleteStart, List.mem_filter]

/-- C10 witness: a concrete delete run in each variant. -/
theorem delete_marker_added_then_cleared_witness :
    "k1" ∈ (StrategyA.deleteStart ⟨[], [], [], []⟩ ⟨"u", "k1"⟩).deleting ∧
    "k1" ∉ (StrategyA.handleDelete ⟨[], [], [], []⟩ ⟨"u", "k1"⟩ true).deleting ∧
    "k1" ∈ (StrategyB.deleteStart ⟨[], [], []⟩ ⟨"u", "k1"⟩).deleting ∧
    "k1" ∉ (StrategyB.handleDelete ⟨[], [], []⟩ ⟨"u", "k1"⟩ true).deleting :=
  delete_marker_added_then_cleared ⟨[], [], [], []⟩ ⟨[], [], []⟩ ⟨"u", "k1"⟩ true

/-- C4 counterexample: the claim says a failed remote delete still leaves the
image removed from local state; in both variants the failing path skips the
removal, so the image is still present afterwards. -/
theorem delete_failure_keeps_image_counterexample :
    (⟨"u", "k1"⟩ : EventImage)
        ∈ (StrategyA.handleDelete ⟨[], [⟨"u", "k1"⟩], [], []⟩ ⟨"u", "k1"⟩ false).images ∧
    (⟨"u", "k1"⟩ : EventImage)
        ∈ (StrategyB.handleDelete ⟨[], [⟨"u", "k1"⟩], []⟩ ⟨"u", "k1"⟩ false).images := by
  decide

/-- C4 (amended): the in-memory removal happens only after the remote delete
succeeds; when the remote call fails, images, groups and face records are
left exactly as they were and only the deleting marker is cleared. -/
theorem delete_removal_requires_remote_success :
    ∀ (sA : StrategyA.ComponentState) (sB : StrategyB.ComponentState) (image : EventImage),
      (StrategyA.handleDelete sA image false).images = sA.images ∧
      (StrategyA.handleDelete sA image false).faceGroups = sA.faceGroups ∧
      (StrategyA.handleDelete sA image false).allFaceRecords = sA.allFaceRecords ∧
      (StrategyA.handleDelete sA image false).deleting
          = sA.deleting.filter (fun k => !(k == image.key)) ∧
      (StrategyB.handleDelete sB image false).images = sB.images ∧
      (StrategyB.handleDelete sB image false).faceGroups = sB.faceGroups ∧
      (StrategyB.handleDelete sB image false).deleting
          = sB.deleting.filter (fun k => !(k == image.key)) := by
  intro sA sB image
  refine ⟨rfl, rfl, rfl, ?_, rfl, rfl, ?_⟩
  · simp [StrategyA.handleDelete, StrategyA.deleteStart, List.filter_append]
  · simp [StrategyB.handleDelete, StrategyB.deleteStart, List.filter_append]

/-- C3 counterexample: deleting the sole member of a group in the
whole-image variant leaves the group in the partition with an empty member
list — it is not removed, contradicting the claim's pruning clause. -/
theorem delete_leaves_empty_group_in_B_counterexample :
    ("g", ([] : List EventImage))
      ∈ (StrategyB.handleDelete ⟨[], [⟨"u", "k1"⟩], [("g", [⟨"u", "k1"⟩])]⟩
          ⟨"u", "k1"⟩ true).faceGroups := by
  decide

/-- C3 (amended): when the remote delete succeeds, the one state transition
removes the image from the image set and from every group's member list in
both variants; the per-face variant then removes every group whose member
list became empty, while the whole-image variant keeps such groups (with an
empty list) — its group keys are unchanged by deletion. -/
theorem delete_updates_partition_prunes_only_in_A :
    ∀ (sA : StrategyA.ComponentState) (sB : StrategyB.ComponentState) (image : EventImage),
      (∀ i ∈ (StrategyA.handleDelete sA image true).images, i.key ≠ image.key) ∧
      (∀ b ∈ (StrategyA.handleDelete sA image true).faceGroups,
        b.2 ≠ [] ∧ ∀ fr ∈ b.2, fr.image.key ≠ image.key) ∧
      (∀ i ∈ (StrategyB.handleDelete sB image true).images, i.key ≠ image.key) ∧
      (∀ b ∈ (StrategyB.handleDelete sB image true).faceGroups,
        ∀ im ∈ b.2, im.key ≠ image.key) ∧
      (StrategyB.handleDelete sB image true).faceGroups.map Prod.fst
          = sB.faceGroups.map Prod.fst := by
  intro sA sB image
  refine ⟨?_, ?_, ?_, ?_, ?_⟩
  · intro i hi
    simp [StrategyA.handleDelete, StrategyA.deleteStart, List.mem_filter] at hi
    exact hi.2
  · intro b hb
    simp only [StrategyA.handleDelete, StrategyA.deleteStart, if_true, List.mem_filter,
      List.mem_map] at hb
    obtain ⟨⟨p, hp, hpb⟩, hlen⟩ := hb
    constructor
    · intro hnil
      rw [hnil] at hlen
      simp at hlen
    · intro fr hfr
      rw [← hpb] at hfr
      simp only [List.mem_filter] at hfr
      simpa using hfr.2
  · intro i hi
    simp [StrategyB.handleDelete, StrategyB.deleteStart, List.mem_filter] at hi
    exact hi.2
  · intro b hb
    simp only [StrategyB.handleDelete, StrategyB.deleteStart, if_true, List.mem_map] at hb
    obtain ⟨p, hp, hpb⟩ := hb
    intro im him
    rw [← hpb] at him
    simp only [List.mem_filter] at him
    simpa using him.2
  · simp [StrategyB.handleDelete, StrategyB.deleteStart, List.map_map, Function.comp]

/-- C3 witness: the amended statement at a concrete state of each variant. -/
theorem delete_updates_partition_prunes_only_in_A_witness :
    (∀ i ∈ (StrategyA.handleDelete c3StateA ⟨"u", "k1"⟩ true).images, i.key ≠ "k1") ∧
    (∀ b ∈ (StrategyA.handleDelete c3StateA ⟨"u", "k1"⟩ true).faceGroups,
      b.2 ≠ [] ∧ ∀ fr ∈ b.2, fr.image.key ≠ "k1") ∧
    (∀ i ∈ (StrategyB.handleDelete c3StateB ⟨"u", "k1"⟩ true).images, i.key ≠ "k1") ∧
    (∀ b ∈ (StrategyB.handleDelete c3StateB ⟨"u", "k1"⟩ true).faceGroups,
      ∀ im ∈ b.2, im.key ≠ "k1") ∧
    (StrategyB.handleDelete c3StateB ⟨"u", "k1"⟩ true).faceGroups.map Prod.fst
        = c3StateB.faceGroups.map Prod.fst :=
  delete_updates_partition_prunes_only_in_A c3StateA c3StateB ⟨"u", "k1"⟩

/-- The images a fetch loop accumulates do not depend on the retained-error
component of the accumulator. -/
theorem fetchLoop_fst_ignores_error (bucket : String) :
    ∀ (outcomes : List (Except Nat ListResult)) (x : List EventImage) (y z : Option Nat),
      (outcomes.foldl (fetchStep bucket) (x, y)).1
        = (outcomes.foldl (fetchStep bucket) (x, z)).1 := by
  intro outcomes
  induction outcomes with
  | nil => intro x y z; rfl
  | cons o rest ih =>
    intro x y z
    cases o with
    | error e => simp only [List.foldl_cons, fetchStep]
    | ok r => simp only [List.foldl_cons, fetchStep]; exact ih _ _ _

/-- C6: a storage error from one prefix is surfaced as the load's failure
only when the whole loop produced no images; when at least one image was
listed the load proceeds with the listed images regardless of the retained
error, and an erroring prefix contributes nothing to the image list (the
remaining prefixes are still processed). -/
theorem fetch_error_surfaced_only_without_images :
    ∀ (bucket : String) (outcomes : List (Except Nat ListResult)),
      ((fetchLoop bucket outcomes).1 ≠ [] →
        fetchEventImages bucket outcomes = .proceed (fetchLoop bucket outcomes).1) ∧
      ((fetchLoop bucket outcomes).1 = [] →
        ∀ e, (fetchLoop bucket outcomes).2 = some e →
          fetchEventImages bucket outcomes = .failed e) ∧
      (∀ (pre post : List (Except Nat ListResult)) (e : Nat),
        (fetchLoop bucket (pre ++ Except.error e :: post)).1
          = (fetchLoop bucket (pre ++ post)).1) := by
  intro bucket outcomes
  refine ⟨?_, ?_, ?_⟩
  · intro h
    simp [fetchEventImages, List.length_pos, h]
  · intro h e he
    simp [fetchEventImages, h, he]
  · intro pre post e
    simp only [fetchLoop, List.foldl_append, List.foldl_cons]
    rw [show fetchStep bucket (List.foldl (fetchStep bucket) ([], none) pre) (Except.error e)
        = ((List.foldl (fetchStep bucket) ([], none) pre).1, some e) from rfl]
    rw [fetchLoop_fst_ignores_error bucket post _ (some e)
      (List.foldl (fetchStep bucket) ([], none) pre).2]

/-- C6 witness: one prefix listing an image and one failing gives a proceed
with the listed image; a single failing prefix with nothing listed surfaces
the retained error. -/
theorem fetch_error_surfaced_only_without_images_witness :
    fetchEventImages "b" [Except.ok ⟨some [⟨some "a.jpg"⟩]⟩, Except.error 7]
        = .proceed (fetchLoop "b" [Except.ok ⟨some [⟨some "a.jpg"⟩]⟩, Except.error 7]).1 ∧
    fetchEventImages "b" [Except.error 7] = .failed 7 :=
  ⟨(fetch_error_surfaced_only_without_images "b"
      [Except.ok ⟨some [⟨some "a.jpg"⟩]⟩, Except.error 7]).1 (by decide),
   (fetch_error_surfaced_only_without_images "b" [Except.error 7]).2.1 (by decide) 7 (by decide)⟩

/-- The found foreign match's tag, bridged from the match-level find to a
find over the extracted tag list. -/
theorem findForeignMatch_as_tags (key : String) :
    ∀ (ms : List StrategyB.FaceMatch),
      (match StrategyB.findForeignMatch key ms with
       | some m =>
         match m.face with
         | some f => f.externalImageId.getD ""
         | none => ""
       | none => "")
      = (match (ms.filterMap (fun m => m.face.bind (fun f => f.externalImageId))).find?
            (fun t => !(t == "") && !(t == key)) with
         | some t => t
         | none => "") := by
  intro ms
  induction ms with
  | nil => rfl
  | cons m rest ih =>
    cases hface : m.face with
    | none =>
      simp only [StrategyB.findForeignMatch, List.find?_cons, StrategyB.isForeignMatch, hface,
        List.filterMap_cons, Option.bind]
      simpa [StrategyB.findForeignMatch] using ih
    | some f =>
      cases htag : f.externalImageId with
      | none =>
        simp only [StrategyB.findForeignMatch, List.find?_cons, StrategyB.isForeignMatch, hface,
          htag, List.filterMap_cons, Option.bind]
        simpa [StrategyB.findForeignMatch] using ih
      | some t =>
        by_cases hq : (!(t == "") && !(t == key)) = true
        · simp only [StrategyB.findForeignMatch, List.find?_cons, StrategyB.isForeignMatch, hface,
            htag, List.filterMap_cons, Option.bind, hq, hface]
          simp [hface, htag]
        · have hq' : (!(t == "") && !(t == key)) = false := by
            revert hq
            cases (!(t == "") && !(t == key)) <;> simp
          simp only [StrategyB.findForeignMatch, List.find?_cons, StrategyB.isForeignMatch, hface,
            htag, List.filterMap_cons, Option.bind, hq']
          simpa [StrategyB.findForeignMatch] using ih

/-- Over nonempty tags the truthiness conjunct of the find predicate is
inert: both find predicates agree. -/
theorem find?_tag_congr (key : String) :
    ∀ (tags : List String), (∀ t ∈ tags, ¬ t = "") →
      tags.find? (fun t => !(t == "") && !(t == key)) = tags.find? (fun t => !(t == key)) := by
  intro tags
  induction tags with
  | nil => intro _; rfl
  | cons t rest ih =>
    intro h
    have ht : ¬ t = "" := h t (List.mem_cons_self _ _)
    have hpred : (!(t == "") && !(t == key)) = !(t == key) := by
      simp [ht]
    rw [List.find?_cons, List.find?_cons, hpred]
    cases hk : (!(t == key)) with
    | true => rfl
    | false => exact ih (fun u hu => h u (List.mem_cons_of_mem _ hu))

/-- C7: for each image, when the search outcome carries a match whose
external tag (always nonempty, per service contract) differs from the
image's own key, that tag becomes the group id; otherwise a fresh
group_<timestamp>_<random> id is minted; and the index call is issued with
the resolved id in either case. -/
theorem strategyB_adopt_or_mint_always_index :
    ∀ (key ts rand : String) (o : Except Unit StrategyB.SearchResponse),
      "" ∉ StrategyB.tagsOf o →
      (StrategyB.processImage key ts rand o).groupId
          = (match StrategyB.foreignTagSpec key o with
             | some t => t
             | none => StrategyB.mintGroupId ts rand) ∧
      (StrategyB.processImage key ts rand o).indexedTag
          = some (StrategyB.processImage key ts rand o).groupId := by
  intro key ts rand o htags
  refine ⟨?_, rfl⟩
  have hnonempty : ∀ t ∈ StrategyB.tagsOf o, ¬ t = "" := by
    intro t hmem he
    exact htags (he ▸ hmem)
  cases o with
  | error e => rfl
  | ok r =>
    cases hms : r.faceMatches with
    | none =>
      simp [StrategyB.processImage, StrategyB.groupIdFromSearch, StrategyB.foreignTagSpec, hms]
    | some ms =>
      have htags' : ∀ t ∈ ms.filterMap (fun m => m.face.bind (fun f => f.externalImageId)),
          ¬ t = "" := by
        intro t hmem
        apply hnonempty
        simp [StrategyB.tagsOf, hms]
        exact (List.mem_filterMap.mp hmem).imp (fun a ha => ⟨ha.1, ha.2⟩)
      cases ms with
      | nil =>
        simp [StrategyB.processImage, StrategyB.groupIdFromSearch, StrategyB.foreignTagSpec, hms]
      | cons m rest =>
        have hbridge := findForeignMatch_as_tags key (m :: rest)
        have hcongr := find?_tag_congr key
          ((m :: rest).filterMap (fun x => x.face.bind (fun f => f.externalImageId))) htags'
        have hg0 : StrategyB.groupIdFromSearch key (Except.ok r)
            = (match ((m :: rest).filterMap (fun x => x.face.bind (fun f => f.externalImageId))).find?
                  (fun t => !(t == key)) with
               | some t => t
               | none => "") := by
          rw [StrategyB.groupIdFromSearch]
          simp only [hms, List.length_cons]
          rw [if_pos (Nat.succ_pos _)]
          rw [← hcongr, ← hbridge]
        have hspec : StrategyB.foreignTagSpec key (Except.ok r)
            = ((m :: rest).filterMap (fun x => x.face.bind (fun f => f.externalImageId))).find?
                (fun t => !(t == key)) := by
          simp [StrategyB.foreignTagSpec, hms]
        cases hfind : ((m :: rest).filterMap (fun x => x.face.bind (fun f => f.externalImageId))).find?
            (fun t => !(t == key)) with
        | none =>
          rw [hspec, hfind]
          simp only [StrategyB.processImage]
          rw [hg0, hfind]
          rfl
        | some t =>
          have htmem : t ∈ (m :: rest).filterMap (fun x => x.face.bind (fun f => f.externalImageId)) :=
            List.mem_of_find?_eq_some hfind
          have htne : ¬ t = "" := htags' t htmem
          rw [hspec, hfind]
          simp only [StrategyB.processImage]
          rw [hg0, hfind]
          simp [htne]

/-- C7 witness: a concrete adoption run. -/
theorem strategyB_adopt_or_mint_always_index_witness :
    ("" ∉ StrategyB.tagsOf c7Outcome) ∧
    ((StrategyB.processImage "k" "t1" "r1" c7Outcome).groupId
        = (match StrategyB.foreignTagSpec "k" c7Outcome with
           | some t => t
           | none => StrategyB.mintGroupId "t1" "r1") ∧
     (StrategyB.processImage "k" "t1" "r1" c7Outcome).indexedTag
        = some (StrategyB.processImage "k" "t1" "r1" c7Outcome).groupId) :=
  ⟨by decide, strategyB_adopt_or_mint_always_index "k" "t1" "r1" c7Outcome (by decide)⟩

/-- A successful lookup names a member pair of the association list. -/
theorem lookup_pair_mem :
    ∀ {l : List (String × String)} {a b : String}, List.lookup a l = some b → (a, b) ∈ l := by
  intro l
  induction l with
  | nil => intro a b h; simp [List.lookup] at h
  | cons p rest ih =>
    intro a b h
    obtain ⟨k, v⟩ := p
    rw [List.lookup] at h
    cases hk : (a == k) with
    | true =>
      rw [hk] at h
      simp only [Option.some.injEq] at h
      have hak : a = k := by simpa using hk
      subst hak
      subst h
      exact List.mem_cons_self _ _
    | false =>
      rw [hk] at h
      exact List.mem_cons_of_mem _ (ih h)

/-- Dropping empty-string ids before the lookup changes nothing when the
empty string has no entry. -/
theorem filterMap_lookup_skip_empty (assigned : List (String × String))
    (hk : List.lookup "" assigned = none) :
    ∀ (ids : List String),
      (ids.filter (fun id => !(id == ""))).filterMap (fun id => List.lookup id assigned)
        = ids.filterMap (fun id => List.lookup id assigned) := by
  intro ids
  induction ids with
  | nil => rfl
  | cons id rest ih =>
    by_cases hid : id = ""
    · subst hid
      simp [List.filter_cons, List.filterMap_cons, hk, ih]
    · simp [List.filter_cons, List.filterMap_cons, hid, ih]

/-- C2: when a face's search succeeds with matches and at least one matched
face id already has an assigned group id, the step adopts the assigned group
id of the first such matched id in service order, mints nothing (the counter
is unchanged), and the search command carries MaxFaces 5 and
FaceMatchThreshold 80.  The hypotheses state the invariants of the phase-2
map: no empty-string key, no empty-string group id. -/
theorem strategyA_adopts_first_assigned_match :
    ∀ (assigned : List (String × String)) (n : Nat) (fid : String)
      (ms : List StrategyA.FaceMatch) (g collectionId : String),
      List.lookup "" assigned = none →
      (∀ p ∈ assigned, p.2 ≠ "") →
      StrategyA.firstAssignedGroupSpec assigned ms = some g →
      StrategyA.phase2Step ⟨assigned, n⟩ fid (Except.ok ⟨some ms⟩)
          = ⟨(fid, g) :: assigned, n⟩ ∧
      (StrategyA.phase2SearchParams collectionId fid).maxFaces = 5 ∧
      (StrategyA.phase2SearchParams collectionId fid).faceMatchThreshold = 80 := by
  intro assigned n fid ms g cid hk hv hg
  refine ⟨?_, rfl, rfl⟩
  have hvals : ∀ a ∈ (ms.filterMap (fun m => m.face.bind (fun f => f.faceId))).filterMap
      (fun id => List.lookup id assigned), ¬ a = "" := by
    intro a ha hae
    obtain ⟨id, _, hlook⟩ := List.mem_filterMap.mp ha
    exact hv (id, a) (lookup_pair_mem hlook) hae
  have h1 : StrategyA.matchedGroupIds assigned ms
      = (ms.filterMap (fun m => m.face.bind (fun f => f.faceId))).filterMap
          (fun id => List.lookup id assigned) := by
    unfold StrategyA.matchedGroupIds StrategyA.matchFaceIds
    rw [filterMap_lookup_skip_empty assigned hk]
    apply List.filter_eq_self.mpr
    intro a ha
    simpa using hvals a ha
  cases ms with
  | nil =>
    exfalso
    simp [StrategyA.firstAssignedGroupSpec] at hg
  | cons m rest =>
    have hLdef : StrategyA.firstAssignedGroupSpec assigned (m :: rest)
        = (((m :: rest).filterMap (fun x => x.face.bind (fun f => f.faceId))).filterMap
            (fun id => List.lookup id assigned)).head? := rfl
    rw [hLdef] at hg
    cases hL : ((m :: rest).filterMap (fun x => x.face.bind (fun f => f.faceId))).filterMap
        (fun id => List.lookup id assigned) with
    | nil =>
      rw [hL] at hg
      simp at hg
    | cons a t =>
      rw [hL] at hg
      simp only [List.head?_cons, Option.some.injEq] at hg
      subst hg
      simp only [StrategyA.phase2Step]
      rw [if_pos (by simp : (m :: rest).length > 0)]
      rw [h1, hL]

/-- C2 witness: the adoption rule at a concrete map and match list. -/
theorem strategyA_adopts_first_assigned_match_witness :
    List.lookup "" [("f1", "group_1")] = none ∧
    (∀ p ∈ [("f1", "group_1")], p.2 ≠ "") ∧
    StrategyA.firstAssignedGroupSpec [("f1", "group_1")] c2Matches = some "group_1" ∧
    (StrategyA.phase2Step ⟨[("f1", "group_1")], 1⟩ "f2" (Except.ok ⟨some c2Matches⟩)
        = ⟨("f2", "group_1") :: [("f1", "group_1")], 1⟩ ∧
     (StrategyA.phase2SearchParams "ev" "f2").maxFaces = 5 ∧
     (StrategyA.phase2SearchParams "ev" "f2").faceMatchThreshold = 80) :=
  ⟨by decide, by decide, by decide,
   strategyA_adopts_first_assigned_match [("f1", "group_1")] 1 "f2" c2Matches "group_1" "ev"
     (by decide) (by decide) (by decide)⟩

/-- C9 counterexample: within one batch two files upload concurrently
through the same progress callback, so the event of a file at 50% can be
followed by the event of another file at 10%, emitting 50 then 10 — the
emitted sequence decreases; and an event with no total reported computes a
value above 100. -/
theorem progress_emissions_counterexample :
    emittedPercents [⟨some 50, some 100⟩, ⟨some 10, some 100⟩] = [50, 10] ∧
    ¬ List.Chain' (fun a b => a ≤ b)
        (emittedPercents [⟨some 50, some 100⟩, ⟨some 10, some 100⟩]) ∧
    100 < progressPercent ⟨some 3, none⟩ := by
  refine ⟨by decide, ?_, by decide⟩
  intro h
  rw [(by decide : emittedPercents [⟨some 50, some 100⟩, ⟨some 10, some 100⟩] = [50, 10])] at h
  rw [List.chain'_cons] at h
  omega

/-- Arithmetic core of the progress bound. -/
theorem pct_arith_le (l t : Nat) (h : l ≤ t) :
    (200 * l + jsOr (some t) 1) / (2 * jsOr (some t) 1) ≤ 100 := by
  by_cases ht : t = 0
  · subst ht
    have hl : l = 0 := Nat.le_zero.mp h
    subst hl
    decide
  · have hd : jsOr (some t) 1 = t := by simp [jsOr, ht]
    rw [hd]
    have h2 : 0 < 2 * t := by omega
    apply Nat.le_of_lt_succ
    rw [Nat.div_lt_iff_lt_mul h2]
    omega

/-- An event whose loaded value is at most its reported total computes at
most 100. -/
theorem progressPercent_le_100 (e : ProgressEvent) (t : Nat)
    (htot : e.total = some t) (hld : jsOr e.loaded 0 ≤ t) :
    progressPercent e ≤ 100 := by
  rw [progressPercent, htot]
  exact pct_arith_le _ t hld

/-- At a fixed reported total the computed percentage is monotone in the
loaded value. -/
theorem progressPercent_mono (e1 e2 : ProgressEvent) (t : Nat)
    (h1 : e1.total = some t) (h2 : e2.total = some t)
    (hl : jsOr e1.loaded 0 ≤ jsOr e2.loaded 0) :
    progressPercent e1 ≤ progressPercent e2 := by
  rw [progressPercent, progressPercent, h1, h2]
  exact Nat.div_le_div_right (by omega)

/-- Lifting loaded-value monotonicity through the percentage map. -/
theorem chain_percent_of_chain_loaded (t : Nat) :
    ∀ (events : List ProgressEvent), (∀ e ∈ events, e.total = some t) →
      List.Chain' (fun a b => jsOr a.loaded 0 ≤ jsOr b.loaded 0) events →
      List.Chain' (fun a b => a ≤ b) (events.map progressPercent)
  | [] => by intro _ _; simp
  | [e] => by intro _ _; simp
  | e1 :: e2 :: rest => by
    intro htot hch
    rw [List.chain'_cons] at hch
    simp only [List.map_cons, List.chain'_cons]
    refine ⟨progressPercent_mono e1 e2 t (htot e1 (by simp)) (htot e2 (by simp)) hch.1, ?_⟩
    have hrec := chain_percent_of_chain_loaded t (e2 :: rest)
      (fun e he => htot e (List.mem_cons_of_mem _ he)) hch.2
    simpa using hrec

/-- C9 (amended): for a single upload whose events all report the same
total, with loaded values non-decreasing and never exceeding the total, the
emitted percentages are non-decreasing and bounded by 100; with several
files in one batch, or a missing total, neither bound is guaranteed (see the
counterexample). -/
theorem progress_single_file_monotone_bounded :
    ∀ (events : List ProgressEvent) (t : Nat),
      (∀ e ∈ events, e.total = some t) →
      (∀ e ∈ events, jsOr e.loaded 0 ≤ t) →
      List.Chain' (fun a b => jsOr a.loaded 0 ≤ jsOr b.loaded 0) events →
      List.Chain' (fun a b => a ≤ b) (emittedPercents events) ∧
      ∀ p ∈ emittedPercents events, p ≤ 100 := by
  intro events t htot hld hch
  constructor
  · exact chain_percent_of_chain_loaded t events htot hch
  · intro p hp
    obtain ⟨e, he, rfl⟩ := List.mem_map.mp hp
    exact progressPercent_le_100 e t (htot e he) (hld e he)

/-- C9 witness: a two-event single-file trace. -/
theorem progress_single_file_monotone_bounded_witness :
    (∀ e ∈ [(⟨some 1, some 4⟩ : ProgressEvent), ⟨some 4, some 4⟩], e.total = some 4) ∧
    (∀ e ∈ [(⟨some 1, some 4⟩ : ProgressEvent), ⟨some 4, some 4⟩], jsOr e.loaded 0 ≤ 4) ∧
    List.Chain' (fun a b => jsOr a.loaded 0 ≤ jsOr b.loaded 0)
      [(⟨some 1, some 4⟩ : ProgressEvent), ⟨some 4, some 4⟩] ∧
    (List.Chain' (fun a b => a ≤ b)
        (emittedPercents [(⟨some 1, some 4⟩ : ProgressEvent), ⟨some 4, some 4⟩]) ∧
     ∀ p ∈ emittedPercents [(⟨some 1, some 4⟩ : ProgressEvent), ⟨some 4, some 4⟩], p ≤ 100) :=
  ⟨by decide, by decide, List.chain'_pair.mpr (by decide),
   progress_single_file_monotone_bounded [⟨some 1, some 4⟩, ⟨some 4, some 4⟩] 4
     (by decide) (by decide) (List.chain'_pair.mpr (by decide))⟩

/-- C1: after a strategy-B grouping pass over an image set with distinct
keys, every input image lies in exactly one bucket of the published
partition, exactly once within it, and is filtered out of the rendered
"Other Images" bucket — so it appears exactly once in the published output
and never in both places. -/
theorem strategyB_each_image_exactly_once :
    ∀ (images : List EventImage) (oracle : EventImage → Except Unit StrategyB.SearchResponse)
      (ts rand : EventImage → String) (img : EventImage),
      (images.map (fun i => i.key)).Nodup →
      img ∈ images →
      ∃ b, b ∈ StrategyB.runGrouping images oracle ts rand ∧
        img ∈ b.2 ∧ b.2.count img = 1 ∧
        (∀ b' ∈ StrategyB.runGrouping images oracle ts rand, img ∈ b'.2 → b' = b) ∧
        img ∉ StrategyB.ungrouped images (StrategyB.runGrouping images oracle ts rand) := by
  intro images oracle ts rand img hkeys himg
  have hnodup : images.Nodup := List.Nodup.of_map _ hkeys
  set f := StrategyB.resolveResult
    (images.map (fun i => StrategyB.processImage i.key (ts i) (rand i) (oracle i))) with hf
  have hrun : StrategyB.runGrouping images oracle ts rand = buildBuckets f images := rfl
  have hkeysnd := keys_nodup_buildBuckets f images
  have hbucket : bucketOf (buildBuckets f images) (f img)
      = images.filter (fun x => f x == f img) := bucketOf_buildBuckets f images (f img)
  have himgb : img ∈ bucketOf (buildBuckets f images) (f img) := by
    rw [hbucket]
    exact List.mem_filter.mpr ⟨himg, by simp⟩
  obtain ⟨b, hbmem, hbkey, hbval⟩ := exists_entry_of_mem_bucketOf himgb
  refine ⟨b, by rw [hrun]; exact hbmem, ?_, ?_, ?_, ?_⟩
  · rw [hbval]
    exact himgb
  · rw [hbval, hbucket]
    have h1 : images.count img = 1 := List.count_eq_one_of_mem hnodup himg
    have hle : (images.filter (fun x => f x == f img)).count img ≤ images.count img :=
      (List.filter_sublist images).count_le img
    have hge : 0 < (images.filter (fun x => f x == f img)).count img := by
      apply List.count_pos_iff.mpr
      rw [← hbucket]
      exact himgb
    omega
  · intro b' hb' himgb'
    rw [hrun] at hb'
    have hval' : bucketOf (buildBuckets f images) b'.1 = b'.2 := bucketOf_of_mem hkeysnd hb'
    have hfil : b'.2 = images.filter (fun x => f x == b'.1) := by
      rw [← hval', bucketOf_buildBuckets]
    have hfimg : (f img == b'.1) = true := by
      rw [hfil] at himgb'
      exact (List.mem_filter.mp himgb').2
    have hkey' : b'.1 = f img := by
      have h2 : f img = b'.1 := by simpa using hfimg
      exact h2.symm
    exact entry_eq_of_keys_nodup hkeysnd hb' hbmem (hkey'.trans hbkey.symm)
  · intro hin
    have himgflat : img ∈ ((buildBuckets f images).map Prod.snd).flatten :=
      List.mem_flatten.mpr ⟨b.2, List.mem_map_of_mem Prod.snd hbmem, by rw [hbval]; exact himgb⟩
    rw [hrun] at hin
    simp only [StrategyB.ungrouped, List.mem_filter] at hin
    rw [Bool.not_eq_true'] at hin
    exact absurd himgflat (by simpa using hin.2)

/-- C1 witness: the exact-once property at a concrete two-image set. -/
theorem strategyB_each_image_exactly_once_witness :
    (c1Images.map (fun i => i.key)).Nodup ∧
    (⟨"ua", "a.jpg"⟩ : EventImage) ∈ c1Images ∧
    (∃ b, b ∈ StrategyB.runGrouping c1Images c1Oracle c1Ts c1Rand ∧
      (⟨"ua", "a.jpg"⟩ : EventImage) ∈ b.2 ∧ b.2.count ⟨"ua", "a.jpg"⟩ = 1 ∧
      (∀ b' ∈ StrategyB.runGrouping c1Images c1Oracle c1Ts c1Rand,
        (⟨"ua", "a.jpg"⟩ : EventImage) ∈ b'.2 → b' = b) ∧
      (⟨"ua", "a.jpg"⟩ : EventImage)
        ∉ StrategyB.ungrouped c1Images (StrategyB.runGrouping c1Images c1Oracle c1Ts c1Rand)) :=
  ⟨by decide, by decide,
   strategyB_each_image_exactly_once c1Images c1Oracle c1Ts c1Rand ⟨"ua", "a.jpg"⟩
     (by decide) (by decide)⟩
